import Mathlib

/-!
Verification of the NoiseBox playback controller (`medialogic/controller.py`,
`medialogic/media_library.py`) against its natural-language specification.

The Python code is shallowly embedded: classes become structures, mutation
becomes explicit state passing, Python `dict`s become association lists with
insert-overwrite semantics, and exceptions become `Except`.  The `oracles`
and `player` modules are imported by the controller but their sources are not
part of this snapshot; those parts are modelled from the spec and marked as
such in their doc comments.
-/

namespace NoiseBox

/-- Errors surfaced by the embedded code.  `useAfterFree` embeds
`UseAfterFreeException` from `controller.py`; `notFound` embeds both
`media_library.NotFoundException` and Python's `KeyError` on a missing
dictionary key (a not-found condition); the remaining constructors embed the
other `media_library` exceptions. -/
inductive Err where
  | useAfterFree
  | notFound
  | alreadyExists
  | illegalArgument
  deriving DecidableEq

/-! ## Dictionary helpers

Python `dict` is embedded as an association list kept in insertion order with
unique keys: insertion of an existing key overwrites in place, insertion of a
new key appends. -/

/-- Lookup in an embedded Python dict: value of the first entry whose key
matches, if any. -/
def dictFind {κ ν : Type} [BEq κ] (m : List (κ × ν)) (k : κ) : Option ν :=
  (m.find? (fun p => p.1 == k)).map (fun p => p.2)

/-- Insertion into an embedded Python dict: overwrite the entry in place when
the key is present, append otherwise. -/
def dictInsert {κ ν : Type} [BEq κ] (m : List (κ × ν)) (k : κ) (v : ν) :
    List (κ × ν) :=
  if m.any (fun p => p.1 == k) then
    m.map (fun p => if p.1 == k then (k, v) else p)
  else
    m ++ [(k, v)]

/-! ## Native device snapshot

VLC hands the controller a singly-linked list of audio output device records;
each node carries a description and a device name (`AudioOutputDevice` with
`contents.description`, `contents.device`, `contents.next`). -/

/-- The native linked snapshot of audio output devices, one node per device,
as traversed by `AudioDevices._build_devices`. -/
inductive NativeDeviceList where
  | nil
  | node (description : String) (device : String) (next : NativeDeviceList)
  deriving DecidableEq

/-- Number of nodes of a native snapshot. -/
def NativeDeviceList.length : NativeDeviceList → Nat
  | .nil => 0
  | .node _ _ next => next.length + 1

/-- Embeds `AudioDevice`: the materialized copy of one native record's
contents (`description` and `device` name, decoded to text). -/
structure AudioDevice where
  description : String
  device : String
  deriving DecidableEq

/-- Embeds `AudioDevice.__str__`: the decoded description. -/
def AudioDevice.str (d : AudioDevice) : String := d.description

/-- Embeds `AudioDevices._build_devices`: walk the native linked list once,
front to back, materializing each node into an `AudioDevice`. -/
def buildDevices : NativeDeviceList → List AudioDevice
  | .nil => []
  | .node description device next => ⟨description, device⟩ :: buildDevices next

/-- Embeds the dict comprehension
`{idx: device for idx, device in enumerate(device_list)}`: association list
from consecutive integer indices (starting at `k`) to devices. -/
def enumFrom (k : Int) : List AudioDevice → List (Int × AudioDevice)
  | [] => []
  | d :: rest => (k, d) :: enumFrom (k + 1) rest

/-- Embeds `AudioDevices`: the two derived mappings plus the liveness flag
`_valid`.  The native `device_list_ptr` itself is opaque; its release is
observed through the `Bool`/counter results of the `free` operations below. -/
structure AudioDevices where
  user_device_map : List (Int × AudioDevice)
  device_name_map : List (Option String × Option AudioDevice)
  valid : Bool
  deriving DecidableEq

/-- Embeds `AudioDevices.__init__`: build the device list from the native
enumeration, number it from 0, then build the name map starting from the
synthetic `None ↦ user_device_map.get(0, None)` entry and inserting each
device under its decoded name. -/
def AudioDevices.ofEnum (audio_device_enum : NativeDeviceList) : AudioDevices :=
  let device_list := buildDevices audio_device_enum
  let user_device_map := enumFrom 0 device_list
  let device_name_map :=
    device_list.foldl
      (fun m d => dictInsert m (some d.device) (some d))
      [(none, dictFind user_device_map 0)]
  { user_device_map := user_device_map
    device_name_map := device_name_map
    valid := true }

/-- The constant `FREED_ERROR_STRING` from `controller.py`. -/
def FREED_ERROR_STRING : String := "Invalid object - already freed."

/-- Embeds `AudioDevices.free`: when still valid, release the native list
(the returned `Bool` records that `libvlc_audio_output_device_list_release`
was called) and drop the liveness flag; otherwise do nothing. -/
def AudioDevices.free (ad : AudioDevices) : AudioDevices × Bool :=
  if ad.valid then ({ ad with valid := false }, true) else (ad, false)

/-- Runs `free` a given number of times, counting how often the native
release call was actually invoked. -/
def AudioDevices.freeN : Nat → AudioDevices → AudioDevices × Nat
  | 0, ad => (ad, 0)
  | n + 1, ad =>
    let fr := ad.free
    let rest := AudioDevices.freeN n fr.1
    (rest.1, (if fr.2 then 1 else 0) + rest.2)

/-- Embeds `AudioDevices.__str__`: the freed-object marker after release,
otherwise a newline followed by one tab-indented `index: description` line
per entry of `user_device_map`, in insertion order. -/
def AudioDevices.str (ad : AudioDevices) : String :=
  if !ad.valid then FREED_ERROR_STRING
  else
    "\n" ++ String.intercalate "\n"
      (ad.user_device_map.map
        (fun e => "\t" ++ toString e.1 ++ ": " ++ e.2.str))

/-- Embeds `AudioDevices.device_for_index`: raises `UseAfterFreeException`
after release, otherwise a plain dict lookup (`KeyError` when absent). -/
def AudioDevices.device_for_index (ad : AudioDevices) (index : Int) :
    Except Err AudioDevice :=
  if !ad.valid then .error .useAfterFree
  else
    match dictFind ad.user_device_map index with
    | some d => .ok d
    | none => .error .notFound

/-- Embeds `AudioDevices.device_from_device_name`: a plain lookup in
`device_name_map` with no liveness check (`KeyError` when the name is
absent).  The key is `Option String` because Python uses `None` for the
absent name. -/
def AudioDevices.device_from_device_name (ad : AudioDevices)
    (device_name : Option String) : Except Err (Option AudioDevice) :=
  match dictFind ad.device_name_map device_name with
  | some v => .ok v
  | none => .error .notFound

/-! ## Device snapshot lifecycle at the controller

`Controller.list_devices` frees the previous `AudioDevices` snapshot and
builds a fresh one from a new native enumeration.  To reason about how many
snapshots are live at a time, the embedding keeps every snapshot the
controller has ever created, in creation order; the Python object held in
`self.devices` is the last one. -/

/-- All `AudioDevices` snapshots a controller has created so far, in
creation order; `Controller.__init__` creates the first.  The current
`self.devices` is the last entry. -/
structure DeviceLifecycle where
  snapshots : List AudioDevices
  deriving DecidableEq

/-- Apply a function to the last element of a list, if any. -/
def modifyLast {α : Type} (f : α → α) : List α → List α
  | [] => []
  | [a] => [f a]
  | a :: b :: rest => a :: modifyLast f (b :: rest)

/-- Embeds the snapshot created in `Controller.__init__`. -/
def DeviceLifecycle.init (e : NativeDeviceList) : DeviceLifecycle :=
  ⟨[AudioDevices.ofEnum e]⟩

/-- The first half of `Controller.list_devices`: `self.devices.free()`. -/
def DeviceLifecycle.freePhase (c : DeviceLifecycle) : DeviceLifecycle :=
  ⟨modifyLast (fun ad => ad.free.1) c.snapshots⟩

/-- Embeds `Controller.list_devices`: free the prior snapshot, then build a
new one from a fresh native enumeration `e` and render it.  Returns the
rendered listing together with the new lifecycle state. -/
def DeviceLifecycle.list_devices (c : DeviceLifecycle) (e : NativeDeviceList) :
    String × DeviceLifecycle :=
  let freed := c.freePhase
  let fresh := AudioDevices.ofEnum e
  (fresh.str, ⟨freed.snapshots ++ [fresh]⟩)

/-- Number of live (valid, unreleased) snapshots in the lifecycle state. -/
def DeviceLifecycle.liveCount (c : DeviceLifecycle) : Nat :=
  (c.snapshots.filter (fun ad => ad.valid)).length

/-- Every snapshot other than the most recent one has been released. -/
def DeviceLifecycle.liveOnlyLast (c : DeviceLifecycle) : Prop :=
  ∀ ad ∈ c.snapshots.dropLast, ad.valid = false

/-! ## Media library

Embeds `media_library.py`.  `os.path.isfile` is an effect of the environment
and is passed in as a predicate `fs : String → Bool`. -/

/-- Embeds `media_library.Song` (the `alias`, `uri` and `description`
fields; the file-existence check done by `Song.__init__` is separated out
into `checkFileExists` below). -/
structure Song where
  «alias» : String
  uri : String
  description : String
  deriving DecidableEq

/-- Embeds `_check_file_exists`: succeed when the file-system predicate
holds of the URI, raise `NotFoundException` otherwise. -/
def checkFileExists (fs : String → Bool) (song_uri : String) :
    Except Err Unit :=
  if fs song_uri then .ok () else .error .notFound

/-- Embeds the `Song(alias, uri)` constructor as called by
`MediaLibrary.get_song`: check the file exists, then build the record with
the default empty description. -/
def Song.make (fs : String → Bool) («alias» : String) (uri : String) :
    Except Err Song := do
  checkFileExists fs uri
  pure ⟨«alias», uri, ""⟩

/-- Embeds `MediaLibrary`: the song map keyed by alias and the playlist map
keyed by playlist name, both Python dicts. -/
structure MediaLibrary where
  song_map : List (String × Song)
  playlists : List (String × List String)
  deriving DecidableEq

/-- Embeds `MediaLibrary.get_song`: raise `NotFoundException` for an
unregistered alias, otherwise return a defensive copy (a fresh `Song` built
from the stored alias and URI, which re-checks the file). -/
def MediaLibrary.get_song (fs : String → Bool) (ml : MediaLibrary)
    (song_alias : String) : Except Err Song :=
  match dictFind ml.song_map song_alias with
  | none => .error .notFound
  | some song => Song.make fs song.«alias» song.uri

/-- Embeds `MediaLibrary.get_playlist`: raise `NotFoundException` for an
unknown playlist name, otherwise return (a copy of) the alias list. -/
def MediaLibrary.get_playlist (ml : MediaLibrary) (playlist_name : String) :
    Except Err (List String) :=
  match dictFind ml.playlists playlist_name with
  | none => .error .notFound
  | some l => .ok l

/-- Embeds `MediaLibrary.get`: prefer playlists (resolving each member alias
to its URI), raise `NotFoundException` when the name is neither a playlist
nor a song, and fall back to the single song's URI otherwise. -/
def MediaLibrary.get (fs : String → Bool) (ml : MediaLibrary) (name : String) :
    Except Err (List String) :=
  if ml.playlists.any (fun p => p.1 == name) then do
    let pl ← ml.get_playlist name
    pl.mapM (fun a => do
      let s ← ml.get_song fs a
      pure s.uri)
  else if !(ml.playlists.any (fun p => p.1 == name))
      && !(ml.song_map.any (fun p => p.1 == name)) then
    .error .notFound
  else do
    let s ← ml.get_song fs name
    pure [s.uri]

/-! ## Scheduling tree (oracles)

The `oracles` module the controller imports is not part of this source
snapshot; the oracle classes are therefore modelled from the spec (§2, §3 of
`spec.md`), and the controller operations below follow the statement order
of `Controller.play` / `queue` / `queue_repeat` in `controller.py`. -/

/-- Modelled from the spec: `PlaylistSource` — "owns an ordered sequence of
`Item`; an internal cursor (initially at index 0) advances by one on each
non-exhausted call"; embeds the `oracles.PlaylistOracle` class, whose source
is not in this snapshot. -/
structure PlaylistOracle where
  items : List String
  cursor : Nat
  deriving DecidableEq

/-- Modelled from the spec: the constructor `PlaylistOracle(songs)` starts
its cursor at index 0. -/
def PlaylistOracle.make (items : List String) : PlaylistOracle := ⟨items, 0⟩

/-- Modelled from the spec: a child of a `ChainSource` as the controller
builds them — either a `PlaylistSource` or a `RepeatingSource` ("owns an
ordered sequence of `Item`, an internal cursor over that sequence, and a
remaining-repeat counter (`Some(n)` with `n ≥ 0`, or `None` for
unlimited)"); embeds `oracles.PlaylistOracle` / `oracles.RepeatingOracle`. -/
inductive ChainChild where
  | playlist (p : PlaylistOracle)
  | repeating (items : List String) (times : Option Nat) (cursor : Nat)
  deriving DecidableEq

/-- Modelled from the spec: `ChainSource` — "owns an ordered,
append-only-at-the-tail list of child TrackSources and a current-index
cursor"; embeds `oracles.ChainOracle`, whose source is not in this
snapshot.  A fresh `ChainOracle()` has no children and its cursor at 0. -/
structure ChainOracle where
  children : List ChainChild
  cursor : Nat
  deriving DecidableEq

/-- Modelled from the spec: `ChainOracle.add` appends a child at the tail
of the chain. -/
def ChainOracle.add (c : ChainOracle) (child : ChainChild) : ChainOracle :=
  { c with children := c.children ++ [child] }

/-! ## Controller scheduling state

Python aliasing is made explicit: `ChainOracle` objects live in a heap of
`(id, state)` pairs; `self.queueing_oracle` and the `SwitchOracle`'s target
are ids into that heap (after `__init__` and after every operation they are
the same id, mirroring `switch_oracle.set_oracle(self.queueing_oracle)`). -/

/-- The scheduling-tree part of `Controller` state: the media library, the
heap of `ChainOracle` objects ever created (with a fresh-id counter), the id
held by `self.queueing_oracle`, the id the `SwitchOracle` currently targets
(`none` embeds the switch's initial empty target, per the spec
"nullable/absent initially"), the root `InterruptOracle`'s pending item
queue, and a counter of `vlc_player.next_song()` signals. -/
structure ControllerState where
  library : MediaLibrary
  chains : List (Nat × ChainOracle)
  nextId : Nat
  queueingOracleId : Nat
  switchTargetId : Option Nat
  interruptQueue : List String
  nextSongSignals : Nat
  deriving DecidableEq

/-- The `ChainOracle` state a chain id currently refers to. -/
def ControllerState.chainOf (c : ControllerState) (id : Nat) :
    Option ChainOracle :=
  dictFind c.chains id

/-- Update the `ChainOracle` state behind a chain id (Python mutation of the
shared object). -/
def ControllerState.setChain (c : ControllerState) (id : Nat)
    (f : ChainOracle → ChainOracle) : ControllerState :=
  { c with
    chains := c.chains.map (fun p => if p.1 == id then (p.1, f p.2) else p) }

/-- Embeds the scheduling part of `Controller.__init__`: a fresh
`ChainOracle` is created and installed as the `SwitchOracle`'s target; the
interrupt queue starts empty. -/
def ControllerState.init (library : MediaLibrary) : ControllerState :=
  { library := library
    chains := [(0, ⟨[], 0⟩)]
    nextId := 1
    queueingOracleId := 0
    switchTargetId := some 0
    interruptQueue := []
    nextSongSignals := 0 }

/-- Well-formedness the controller maintains: every allocated chain id, the
queueing id and the switch target id are below the fresh-id counter. -/
def ControllerState.WF (c : ControllerState) : Prop :=
  (∀ p ∈ c.chains, p.1 < c.nextId) ∧
  (∀ i, c.switchTargetId = some i → i < c.nextId) ∧
  c.queueingOracleId < c.nextId

/-- Embeds `Controller.play`: resolve the alias first (the exception
propagates before any mutation); on success create a brand-new
`ChainOracle`, install it as the switch target, add one
`PlaylistOracle(songs)` to it, clear the interrupt queue, and signal
`next_song`.  Returns the Python result (`None` or the raised exception)
together with the state after the call. -/
def ControllerState.play (fs : String → Bool) (c : ControllerState)
    (song_alias : String) : Except Err Unit × ControllerState :=
  match c.library.get fs song_alias with
  | .error e => (.error e, c)
  | .ok songs =>
    let id := c.nextId
    (.ok (),
      { c with
        chains := c.chains ++
          [(id, ⟨[ChainChild.playlist (PlaylistOracle.make songs)], 0⟩)]
        nextId := id + 1
        queueingOracleId := id
        switchTargetId := some id
        interruptQueue := []
        nextSongSignals := c.nextSongSignals + 1 })

/-- Embeds `Controller.queue`: resolve the alias first, then append a
`PlaylistOracle(songs)` to the chain `self.queueing_oracle` refers to. -/
def ControllerState.queue (fs : String → Bool) (c : ControllerState)
    («alias» : String) : Except Err Unit × ControllerState :=
  match c.library.get fs «alias» with
  | .error e => (.error e, c)
  | .ok songs =>
    (.ok (),
      c.setChain c.queueingOracleId
        (fun ch => ch.add (ChainChild.playlist (PlaylistOracle.make songs))))

/-- Embeds `Controller.queue_repeat`: resolve the alias first, then append
a `RepeatingOracle(songs, times)` to the chain `self.queueing_oracle`
refers to. -/
def ControllerState.queue_repeat (fs : String → Bool) (c : ControllerState)
    («alias» : String) (times : Option Nat) :
    Except Err Unit × ControllerState :=
  match c.library.get fs «alias» with
  | .error e => (.error e, c)
  | .ok songs =>
    (.ok (),
      c.setChain c.queueingOracleId
        (fun ch => ch.add (ChainChild.repeating songs times 0)))

/-! ## The root InterruptOracle

Modelled from the spec: `InterruptSource` "owns an ordered FIFO queue of
interrupt items and a single fallback TrackSource.  `advance`: if the
interrupt queue is non-empty, pop and return its front item; otherwise
delegate to the fallback."  The fallback is kept abstract (any state type
with an advance function), which is exactly the claim's "regardless of the
fallback's state". -/

/-- Modelled from the spec: the root `InterruptSource` over an abstract
fallback state; embeds `oracles.InterruptOracle`, whose source is not in
this snapshot. -/
structure InterruptOracle (τ : Type) where
  queue : List String
  fallback : τ

/-- Modelled from the spec: `advance` on the root — pop the front pending
interrupt item when one exists, otherwise delegate to the fallback via its
advance function `adv`. -/
def InterruptOracle.advance {τ : Type} (adv : τ → Option String × τ)
    (o : InterruptOracle τ) : Option String × InterruptOracle τ :=
  match o.queue with
  | x :: rest => (some x, ⟨rest, o.fallback⟩)
  | [] =>
    let r := adv o.fallback
    (r.1, ⟨[], r.2⟩)

/-- Modelled from the spec: `interrupt(items)` enqueues items at the tail
of the FIFO interrupt queue. -/
def InterruptOracle.interrupt {τ : Type} (o : InterruptOracle τ)
    (items : List String) : InterruptOracle τ :=
  { o with queue := o.queue ++ items }

/-- Run `advance` a given number of times, collecting the returned items in
order. -/
def InterruptOracle.advanceN {τ : Type} (adv : τ → Option String × τ) :
    Nat → InterruptOracle τ → List (Option String) × InterruptOracle τ
  | 0, o => ([], o)
  | n + 1, o =>
    let fst := InterruptOracle.advance adv o
    let rest := InterruptOracle.advanceN adv n fst.2
    (fst.1 :: rest.1, rest.2)

/-! ## Spec-side descriptions of the device listing

The following definitions follow the spec's words directly (traversal of the
native linked sequence), to be compared with the embedded code above. -/

/-- Positional lookup in a device list by integer index (negative indices
find nothing). -/
def listAt : List AudioDevice → Int → Option AudioDevice
  | [], _ => none
  | d :: rest, i => if i = 0 then some d else listAt rest (i - 1)

/-- Spec-side description: the `i`-th device of the native snapshot in
linked-list traversal order (nothing for indices outside `0 ≤ i < N`). -/
def NativeDeviceList.deviceAt : NativeDeviceList → Int → Option AudioDevice
  | .nil, _ => none
  | .node description device next, i =>
    if i = 0 then some ⟨description, device⟩ else next.deviceAt (i - 1)

/-- Spec-side description of the rendered listing: one tab-indented
`index: description` line per node, indices counting up from `i` in
traversal order. -/
def NativeDeviceList.listingLines : NativeDeviceList → Int → List String
  | .nil, _ => []
  | .node description _ next, i =>
    ("\t" ++ toString i ++ ": " ++ description) :: next.listingLines (i + 1)

/-! ## Helper lemmas -/

theorem dictFind_enumFrom (l : List AudioDevice) (k i : Int) :
    dictFind (enumFrom k l) i = listAt l (i - k) := by
  induction l generalizing k with
  | nil => simp [dictFind, enumFrom, listAt]
  | cons d rest ih =>
    by_cases h : k = i
    · subst h
      simp [dictFind, enumFrom, listAt, List.find?]
    · have hne : (k == i) = false := by simpa using h
      have hsub : i - k ≠ 0 := by omega
      simp only [enumFrom, dictFind, List.find?, hne, listAt, if_neg hsub]
      have := ih (k + 1)
      simp only [dictFind] at this
      rw [this]
      congr 1
      omega

theorem listAt_buildDevices (nl : NativeDeviceList) (i : Int) :
    listAt (buildDevices nl) i = nl.deviceAt i := by
  induction nl generalizing i with
  | nil => rfl
  | node description device next ih =>
    simp only [buildDevices, listAt, NativeDeviceList.deviceAt]
    by_cases h : i = 0 <;> simp [h, ih]

theorem deviceAt_isSome (nl : NativeDeviceList) (i : Int) :
    (nl.deviceAt i).isSome = true ↔ 0 ≤ i ∧ i < (nl.length : Int) := by
  induction nl generalizing i with
  | nil =>
    simp only [NativeDeviceList.deviceAt, NativeDeviceList.length]
    simp
  | node description device next ih =>
    simp only [NativeDeviceList.deviceAt, NativeDeviceList.length]
    by_cases h : i = 0
    · subst h
      simp
    · rw [if_neg h, ih]
      omega

theorem free_fst_valid (ad : AudioDevices) : (ad.free).1.valid = false := by
  unfold AudioDevices.free
  by_cases h : ad.valid <;> simp [h]

theorem free_snd (ad : AudioDevices) : (ad.free).2 = ad.valid := by
  unfold AudioDevices.free
  by_cases h : ad.valid <;> simp [h]

theorem free_invalid (ad : AudioDevices) (h : ad.valid = false) :
    ad.free = (ad, false) := by
  simp [AudioDevices.free, h]

theorem freeN_invalid (n : Nat) (ad : AudioDevices) (h : ad.valid = false) :
    AudioDevices.freeN n ad = (ad, 0) := by
  induction n with
  | zero => rfl
  | succ n ih => simp [AudioDevices.freeN, free_invalid ad h, ih]

theorem freeN_succ (n : Nat) (ad : AudioDevices) :
    AudioDevices.freeN (n + 1) ad =
      ((ad.free).1, if ad.valid then 1 else 0) := by
  have h1 : (ad.free).1.valid = false := free_fst_valid ad
  simp [AudioDevices.freeN, freeN_invalid n _ h1, free_snd]

theorem dictFind_map_overwrite {κ ν : Type} [BEq κ] [LawfulBEq κ]
    (m : List (κ × ν)) (k k' : κ) (v : ν) (h : k' ≠ k) :
    dictFind (m.map (fun p => if p.1 == k then (k, v) else p)) k' =
      dictFind m k' := by
  induction m with
  | nil => rfl
  | cons e m ih =>
    simp only [List.map_cons, dictFind] at *
    by_cases he : e.1 = k
    · rw [if_pos (by simp [he]),
        List.find?_cons_of_neg _ (by simp [Ne.symm h]),
        List.find?_cons_of_neg _ (by simp [he, Ne.symm h])]
      exact ih
    · rw [if_neg (by simp [he])]
      by_cases h4 : e.1 = k'
      · rw [List.find?_cons_of_pos _ (by simp [h4]),
          List.find?_cons_of_pos _ (by simp [h4])]
      · rw [List.find?_cons_of_neg _ (by simp [h4]),
          List.find?_cons_of_neg _ (by simp [h4])]
        exact ih

theorem dictFind_append_single {κ ν : Type} [BEq κ] [LawfulBEq κ]
    (m : List (κ × ν)) (k k' : κ) (v : ν) (h : k' ≠ k) :
    dictFind (m ++ [(k, v)]) k' = dictFind m k' := by
  induction m with
  | nil =>
    simp only [List.nil_append, dictFind]
    rw [List.find?_cons_of_neg _ (by simp [Ne.symm h])]
  | cons e m ih =>
    simp only [List.cons_append, dictFind] at *
    by_cases h4 : e.1 = k'
    · rw [List.find?_cons_of_pos _ (by simp [h4]),
        List.find?_cons_of_pos _ (by simp [h4])]
    · rw [List.find?_cons_of_neg _ (by simp [h4]),
        List.find?_cons_of_neg _ (by simp [h4])]
      exact ih

theorem dictFind_dictInsert_ne {κ ν : Type} [BEq κ] [LawfulBEq κ]
    (m : List (κ × ν)) (k k' : κ) (v : ν) (h : k' ≠ k) :
    dictFind (dictInsert m k v) k' = dictFind m k' := by
  unfold dictInsert
  by_cases hany : m.any (fun p => p.1 == k)
  · rw [if_pos hany]
    exact dictFind_map_overwrite m k k' v h
  · rw [if_neg hany]
    exact dictFind_append_single m k k' v h

theorem dictFind_foldl_insert_none (l : List AudioDevice)
    (m : List (Option String × Option AudioDevice)) :
    dictFind
      (l.foldl (fun m d => dictInsert m (some d.device) (some d)) m) none =
      dictFind m none := by
  induction l generalizing m with
  | nil => rfl
  | cons d l ih =>
    simp only [List.foldl_cons]
    rw [ih, dictFind_dictInsert_ne]
    exact fun hc => Option.noConfusion hc

theorem map_enumFrom_lines (nl : NativeDeviceList) (k : Int) :
    ((enumFrom k (buildDevices nl)).map
        (fun e => "\t" ++ toString e.1 ++ ": " ++ e.2.str)) =
      nl.listingLines k := by
  induction nl generalizing k with
  | nil => rfl
  | node description device next ih =>
    simp only [buildDevices, enumFrom, List.map_cons,
      NativeDeviceList.listingLines, AudioDevice.str]
    exact congrArg _ (ih (k + 1))

theorem listingLines_length (nl : NativeDeviceList) (k : Int) :
    (nl.listingLines k).length = nl.length := by
  induction nl generalizing k with
  | nil => rfl
  | node description device next ih =>
    simp [NativeDeviceList.listingLines, NativeDeviceList.length, ih]

/-! ## Claim theorems -/

/-- C5: for an `AudioDevices` built from an `N`-node native linked snapshot
and not yet freed, `device_for_index i` returns exactly the `i`-th device in
linked-list traversal order, and the traversal order has a device at `i`
precisely for `0 ≤ i < N`; every other index fails with the not-found
condition (`KeyError`). -/
theorem C5_device_for_index_traversal_order
    (nl : NativeDeviceList) (i : Int) :
    ((AudioDevices.ofEnum nl).device_for_index i =
      match nl.deviceAt i with
      | some d => .ok d
      | none => .error .notFound) ∧
    ((nl.deviceAt i).isSome = true ↔ 0 ≤ i ∧ i < (nl.length : Int)) := by
  constructor
  · have h1 : (AudioDevices.ofEnum nl).valid = true := rfl
    have h2 : (AudioDevices.ofEnum nl).user_device_map =
        enumFrom 0 (buildDevices nl) := rfl
    simp only [AudioDevices.device_for_index, h1, Bool.not_true,
      Bool.false_eq_true, if_false, h2]
    rw [dictFind_enumFrom, Int.sub_zero, listAt_buildDevices]
  · exact deviceAt_isSome nl i

/-- C8: `AudioDevices.free` is idempotent — over any number `n ≥ 1` of
consecutive `free()` calls the object ends up released, further calls change
nothing (the release count is stable under `m` extra calls), the native
release call happens at most once, and the very first `free()` on a valid
object performs it. -/
theorem C8_free_idempotent (ad : AudioDevices) (n m : Nat) (h : 1 ≤ n) :
    (AudioDevices.freeN n ad).1.valid = false ∧
    (AudioDevices.freeN (n + m) ad).2 = (AudioDevices.freeN n ad).2 ∧
    (AudioDevices.freeN n ad).2 ≤ 1 ∧
    (ad.valid = true → ad.free = ({ ad with valid := false }, true)) := by
  obtain ⟨k, rfl⟩ : ∃ k, n = k + 1 := ⟨n - 1, by omega⟩
  have hnm : k + 1 + m = (k + m) + 1 := by omega
  rw [hnm, freeN_succ, freeN_succ]
  refine ⟨free_fst_valid ad, rfl, ?_, ?_⟩
  · by_cases hv : ad.valid <;> simp [hv]
  · intro hv
    simp [AudioDevices.free, hv]

/-- Witness for C8 at a concrete freed object: one call releases, two more
change nothing. -/
theorem C8_free_idempotent_witness :
    (AudioDevices.freeN 1 (AudioDevices.ofEnum .nil)).1.valid = false ∧
    (AudioDevices.freeN (1 + 2) (AudioDevices.ofEnum .nil)).2 =
      (AudioDevices.freeN 1 (AudioDevices.ofEnum .nil)).2 ∧
    (AudioDevices.freeN 1 (AudioDevices.ofEnum .nil)).2 ≤ 1 ∧
    ((AudioDevices.ofEnum .nil).valid = true →
      (AudioDevices.ofEnum .nil).free =
        ({ AudioDevices.ofEnum .nil with valid := false }, true)) :=
  C8_free_idempotent (AudioDevices.ofEnum .nil) 1 2 (by decide)

/-- C9: the rendered listing of an unfreed `AudioDevices` is a newline
followed by one tab-indented `index: description` line per device, indices
counting up from 0 in the order the native linked snapshot was traversed at
construction (one line per node, not sorted). -/
theorem C9_str_listing_traversal_order (nl : NativeDeviceList) :
    (AudioDevices.ofEnum nl).str =
      "\n" ++ String.intercalate "\n" (nl.listingLines 0) ∧
    (nl.listingLines 0).length = nl.length := by
  constructor
  · have h1 : (AudioDevices.ofEnum nl).valid = true := rfl
    have h2 : (AudioDevices.ofEnum nl).user_device_map =
        enumFrom 0 (buildDevices nl) := rfl
    simp only [AudioDevices.str, h1, Bool.not_true, Bool.false_eq_true,
      if_false, h2, map_enumFrom_lines]
  · exact listingLines_length nl 0

/-- C3 counterexample: on a freed one-device snapshot,
`device_from_device_name` still returns the stale device data instead of
failing with the use-after-release condition — it performs no liveness
check. -/
theorem C3_counterexample_name_lookup_after_free :
    ((AudioDevices.ofEnum (.node "desc0" "name0" .nil)).free.1).valid
        = false ∧
    ((AudioDevices.ofEnum (.node "desc0" "name0" .nil)).free.1).device_from_device_name
        (some "name0") = .ok (some ⟨"desc0", "name0"⟩) ∧
    ((AudioDevices.ofEnum (.node "desc0" "name0" .nil)).free.1).device_from_device_name
        (some "name0") ≠ .error .useAfterFree :=
  ⟨rfl, rfl, fun h => nomatch h⟩

/-- C3 amended: after `free()`, `device_for_index` fails with
`UseAfterFreeException` for every index and the rendered listing returns the
freed-object marker string instead of device data, but
`device_from_device_name` performs no liveness check at all — it behaves
exactly as it would on a live object, returning stale name-map data. -/
theorem C3_accessors_after_free_amended (ad : AudioDevices)
    (h : ad.valid = false) :
    (∀ i : Int, ad.device_for_index i = .error .useAfterFree) ∧
    ad.str = FREED_ERROR_STRING ∧
    (∀ name, ad.device_from_device_name name =
      AudioDevices.device_from_device_name { ad with valid := true } name) := by
  refine ⟨fun i => ?_, ?_, fun name => ?_⟩
  · simp [AudioDevices.device_for_index, h]
  · simp [AudioDevices.str, h]
  · simp [AudioDevices.device_from_device_name]

/-- Witness for the amended C3 on a concrete freed snapshot. -/
theorem C3_accessors_after_free_amended_witness :
    (∀ i : Int,
      ((AudioDevices.ofEnum (.node "d" "n" .nil)).free.1).device_for_index i
        = .error .useAfterFree) ∧
    ((AudioDevices.ofEnum (.node "d" "n" .nil)).free.1).str
        = FREED_ERROR_STRING ∧
    (∀ name,
      ((AudioDevices.ofEnum (.node "d" "n" .nil)).free.1).device_from_device_name
          name =
        AudioDevices.device_from_device_name
          { (AudioDevices.ofEnum (.node "d" "n" .nil)).free.1 with
              valid := true } name) :=
  C3_accessors_after_free_amended _ rfl

/-- C6 counterexample: on a snapshot whose single device is named
`"name0"`, looking up the empty device name fails with a not-found
condition (`KeyError`) — it is not resolved to the synthetic default. -/
theorem C6_counterexample_empty_name :
    (AudioDevices.ofEnum (.node "desc0" "name0" .nil)).device_from_device_name
        (some "") = .error .notFound ∧
    (AudioDevices.ofEnum (.node "desc0" "name0" .nil)).device_from_device_name
        none = .ok (some ⟨"desc0", "name0"⟩) :=
  ⟨rfl, rfl⟩

/-- C6 amended: on an unfreed `AudioDevices` built from a non-empty
snapshot, the absent (`None`) device name resolves to the synthetic default
entry, and that default is the same device returned for index 0; the
empty-string name receives no special treatment. -/
theorem C6_absent_name_resolves_to_default
    (description device : String) (next : NativeDeviceList) :
    (AudioDevices.ofEnum
        (.node description device next)).device_from_device_name none =
      .ok (some ⟨description, device⟩) ∧
    (AudioDevices.ofEnum (.node description device next)).device_for_index 0 =
      .ok ⟨description, device⟩ := by
  have hmap : (AudioDevices.ofEnum (.node description device next)).device_name_map =
      (buildDevices (.node description device next)).foldl
        (fun m d => dictInsert m (some d.device) (some d))
        [(none,
          dictFind (enumFrom 0 (buildDevices (.node description device next))) 0)] :=
    rfl
  have hfind0 :
      dictFind (enumFrom 0 (buildDevices (.node description device next))) 0 =
        some ⟨description, device⟩ := by
    simp [buildDevices, enumFrom, dictFind, List.find?]
  constructor
  · simp only [AudioDevices.device_from_device_name, hmap,
      dictFind_foldl_insert_none, hfind0]
    rfl
  · have h1 : (AudioDevices.ofEnum (.node description device next)).valid
        = true := rfl
    have h2 : (AudioDevices.ofEnum
        (.node description device next)).user_device_map =
        enumFrom 0 (buildDevices (.node description device next)) := rfl
    simp only [AudioDevices.device_for_index, h1, Bool.not_true,
      Bool.false_eq_true, if_false, h2, hfind0]

theorem modifyLast_free_all_invalid (l : List AudioDevices)
    (h : ∀ ad ∈ l.dropLast, ad.valid = false) :
    ∀ ad ∈ modifyLast (fun ad => ad.free.1) l, ad.valid = false := by
  induction l with
  | nil => intro ad had; cases had
  | cons a l ih =>
    cases l with
    | nil =>
      intro ad had
      simp only [modifyLast, List.mem_singleton] at had
      subst had
      exact free_fst_valid a
    | cons b rest =>
      intro ad had
      simp only [modifyLast, List.mem_cons] at had
      rcases had with rfl | had
      · exact h ad (by simp [List.dropLast])
      · exact ih (fun x hx => h x (by simp [List.dropLast, hx])) ad had

theorem filter_valid_nil (l : List AudioDevices)
    (h : ∀ ad ∈ l, ad.valid = false) :
    l.filter (fun ad => ad.valid) = [] := by
  induction l with
  | nil => rfl
  | cons a l ih =>
    have ha : a.valid = false := h a (by simp)
    simp [List.filter, ha, ih (fun x hx => h x (by simp [hx]))]

theorem liveCount_le_one_of_liveOnlyLast (l : List AudioDevices)
    (h : ∀ ad ∈ l.dropLast, ad.valid = false) :
    (l.filter (fun ad => ad.valid)).length ≤ 1 := by
  induction l with
  | nil => simp
  | cons a l ih =>
    cases l with
    | nil =>
      by_cases ha : a.valid <;> simp [List.filter, ha]
    | cons b rest =>
      have ha : a.valid = false := h a (by simp [List.dropLast])
      simp only [List.filter, ha]
      exact ih (fun x hx => h x (by simp [List.dropLast, hx]))

/-- C7: re-enumeration in `Controller.list_devices` always releases the
prior `AudioDevices` snapshot before building the new one: given that at
most the latest snapshot is live (true of the `__init__` state, and
re-established here), after the free phase no snapshot at all is live,
after the rebuild only the fresh snapshot can be live, and at no point do
two live snapshots coexist. -/
theorem C7_list_devices_single_live_snapshot
    (c : DeviceLifecycle) (e e0 : NativeDeviceList) (h : c.liveOnlyLast) :
    c.liveCount ≤ 1 ∧
    c.freePhase.liveCount = 0 ∧
    (c.list_devices e).2.liveOnlyLast ∧
    (c.list_devices e).2.liveCount ≤ 1 ∧
    (DeviceLifecycle.init e0).liveOnlyLast := by
  have hfree : ∀ ad ∈ modifyLast (fun ad => ad.free.1) c.snapshots,
      ad.valid = false := modifyLast_free_all_invalid c.snapshots h
  have hfreeCount : c.freePhase.liveCount = 0 := by
    simp [DeviceLifecycle.liveCount, DeviceLifecycle.freePhase,
      filter_valid_nil _ hfree]
  refine ⟨liveCount_le_one_of_liveOnlyLast c.snapshots h, hfreeCount, ?_, ?_, ?_⟩
  · intro ad had
    simp only [DeviceLifecycle.list_devices, List.dropLast_concat] at had
    exact hfree ad had
  · have hnil : c.freePhase.snapshots.filter (fun ad => ad.valid) = [] := by
      simpa [DeviceLifecycle.freePhase] using
        filter_valid_nil _ hfree
    simp only [DeviceLifecycle.liveCount, DeviceLifecycle.list_devices,
      List.filter_append, List.length_append, hnil, List.length_nil,
      Nat.zero_add]
    by_cases hv : (AudioDevices.ofEnum e).valid <;> simp [List.filter, hv]
  · intro ad had
    simp [DeviceLifecycle.init, List.dropLast] at had

/-- Witness for C7 starting from the snapshot created in
`Controller.__init__`. -/
theorem C7_list_devices_single_live_snapshot_witness :
    (DeviceLifecycle.init .nil).liveCount ≤ 1 ∧
    (DeviceLifecycle.init .nil).freePhase.liveCount = 0 ∧
    ((DeviceLifecycle.init .nil).list_devices
        (.node "d" "n" .nil)).2.liveOnlyLast ∧
    ((DeviceLifecycle.init .nil).list_devices
        (.node "d" "n" .nil)).2.liveCount ≤ 1 ∧
    (DeviceLifecycle.init .nil).liveOnlyLast :=
  C7_list_devices_single_live_snapshot (DeviceLifecycle.init .nil)
    (.node "d" "n" .nil) .nil
    (fun ad had => by simp [DeviceLifecycle.init, List.dropLast] at had)

theorem dictFind_map_apply (m : List (Nat × ChainOracle)) (id : Nat)
    (f : ChainOracle → ChainOracle) :
    dictFind (m.map (fun p => if p.1 == id then (p.1, f p.2) else p)) id =
      (dictFind m id).map f := by
  induction m with
  | nil => rfl
  | cons e m ih =>
    simp only [List.map_cons, dictFind] at *
    by_cases he : e.1 = id
    · rw [if_pos (by simp [he]),
        List.find?_cons_of_pos _ (by simp [he]),
        List.find?_cons_of_pos _ (by simp [he])]
      rfl
    · rw [if_neg (by simp [he]),
        List.find?_cons_of_neg _ (by simp [he]),
        List.find?_cons_of_neg _ (by simp [he])]
      exact ih

theorem dictFind_map_apply_other (m : List (Nat × ChainOracle))
    (id id' : Nat) (f : ChainOracle → ChainOracle) (h : id' ≠ id) :
    dictFind (m.map (fun p => if p.1 == id then (p.1, f p.2) else p)) id' =
      dictFind m id' := by
  induction m with
  | nil => rfl
  | cons e m ih =>
    simp only [List.map_cons, dictFind] at *
    by_cases he : e.1 = id
    · rw [if_pos (by simp [he]),
        List.find?_cons_of_neg _ (by simp [he, Ne.symm h]),
        List.find?_cons_of_neg _ (by simp [he, Ne.symm h])]
      exact ih
    · rw [if_neg (by simp [he])]
      by_cases h4 : e.1 = id'
      · rw [List.find?_cons_of_pos _ (by simp [h4]),
          List.find?_cons_of_pos _ (by simp [h4])]
      · rw [List.find?_cons_of_neg _ (by simp [h4]),
          List.find?_cons_of_neg _ (by simp [h4])]
        exact ih

theorem chainOf_setChain_same (c : ControllerState) (id : Nat)
    (f : ChainOracle → ChainOracle) :
    (c.setChain id f).chainOf id = (c.chainOf id).map f := by
  simp only [ControllerState.chainOf, ControllerState.setChain]
  exact dictFind_map_apply c.chains id f

theorem chainOf_setChain_other (c : ControllerState) (id id' : Nat)
    (f : ChainOracle → ChainOracle) (h : id' ≠ id) :
    (c.setChain id f).chainOf id' = c.chainOf id' := by
  simp only [ControllerState.chainOf, ControllerState.setChain]
  exact dictFind_map_apply_other c.chains id id' f h

theorem dictFind_append_fresh (m : List (Nat × ChainOracle)) (k : Nat)
    (v : ChainOracle) (h : ∀ p ∈ m, p.1 ≠ k) :
    dictFind (m ++ [(k, v)]) k = some v := by
  induction m with
  | nil => simp [dictFind, List.find?]
  | cons e m ih =>
    have he : e.1 ≠ k := h e (by simp)
    simp only [List.cons_append, dictFind] at *
    rw [List.find?_cons_of_neg _ (by simp [he])]
    exact ih (fun p hp => h p (by simp [hp]))

theorem advanceN_drain {τ : Type} (adv : τ → Option String × τ) (fb : τ)
    (q : List String) (n : Nat) (h : n ≤ q.length) :
    (InterruptOracle.advanceN adv n ⟨q, fb⟩).1 = (q.take n).map some ∧
    (InterruptOracle.advanceN adv n ⟨q, fb⟩).2 = ⟨q.drop n, fb⟩ := by
  induction n generalizing q with
  | zero => simp [InterruptOracle.advanceN]
  | succ n ih =>
    cases q with
    | nil => simp at h
    | cons x rest =>
      have hr := ih rest (by simpa using h)
      refine ⟨?_, ?_⟩ <;>
        simp [InterruptOracle.advanceN, InterruptOracle.advance,
          hr.1, hr.2, List.take, List.drop]

/-- C1: when the alias resolves to `songs`, `Controller.play` performs the
destructive reset — it returns normally, installs a brand-new chain id
(never allocated before, hence also different from the previously active
target) as both `self.queueing_oracle` and the `SwitchOracle`'s target, the
new chain holds exactly one `PlaylistOracle(songs)`, the pending interrupt
queue is cleared, and one `next_song` signal is sent to the player. -/
theorem C1_play_destructive_reset (fs : String → Bool)
    (c : ControllerState) (song_alias : String) (songs : List String)
    (hwf : c.WF) (hget : c.library.get fs song_alias = .ok songs) :
    (c.play fs song_alias).1 = .ok () ∧
    (c.play fs song_alias).2.switchTargetId = some c.nextId ∧
    (c.play fs song_alias).2.queueingOracleId = c.nextId ∧
    (∀ p ∈ c.chains, p.1 ≠ c.nextId) ∧
    (∀ j, c.switchTargetId = some j → j ≠ c.nextId) ∧
    (c.play fs song_alias).2.chainOf c.nextId =
      some ⟨[ChainChild.playlist ⟨songs, 0⟩], 0⟩ ∧
    (c.play fs song_alias).2.interruptQueue = [] ∧
    (c.play fs song_alias).2.nextSongSignals = c.nextSongSignals + 1 := by
  obtain ⟨hids, htgt, -⟩ := hwf
  have hfresh : ∀ p ∈ c.chains, p.1 ≠ c.nextId :=
    fun p hp => Nat.ne_of_lt (hids p hp)
  have hplay : c.play fs song_alias =
      (.ok (), { c with
        chains := c.chains ++
          [(c.nextId, ⟨[ChainChild.playlist (PlaylistOracle.make songs)], 0⟩)]
        nextId := c.nextId + 1
        queueingOracleId := c.nextId
        switchTargetId := some c.nextId
        interruptQueue := []
        nextSongSignals := c.nextSongSignals + 1 }) := by
    simp only [ControllerState.play, hget]
  rw [hplay]
  refine ⟨rfl, rfl, rfl, hfresh,
    fun j hj => Nat.ne_of_lt (htgt j hj), ?_, rfl, rfl⟩
  simp only [ControllerState.chainOf]
  exact dictFind_append_fresh c.chains c.nextId _ hfresh

/-- Witness for C1: playing a known song alias from the freshly initialized
controller state. -/
theorem C1_play_destructive_reset_witness :
    (ControllerState.play (fun _ => true)
        (ControllerState.init ⟨[("s", ⟨"s", "u", ""⟩)], []⟩) "s").1 = .ok () ∧
    (ControllerState.play (fun _ => true)
        (ControllerState.init ⟨[("s", ⟨"s", "u", ""⟩)], []⟩) "s").2.chainOf
        (ControllerState.init ⟨[("s", ⟨"s", "u", ""⟩)], []⟩).nextId =
      some ⟨[ChainChild.playlist ⟨["u"], 0⟩], 0⟩ ∧
    (ControllerState.play (fun _ => true)
        (ControllerState.init ⟨[("s", ⟨"s", "u", ""⟩)], []⟩) "s").2.interruptQueue
      = [] := by
  have h := C1_play_destructive_reset (fun _ => true)
    (ControllerState.init ⟨[("s", ⟨"s", "u", ""⟩)], []⟩) "s" ["u"]
    ⟨by decide,
      fun i hi => by
        simp only [ControllerState.init] at hi ⊢
        injection hi with hi
        omega,
      by decide⟩
    rfl
  exact ⟨h.1, h.2.2.2.2.2.1, h.2.2.2.2.2.2.1⟩

/-- C4: when the alias resolves to `songs`, `Controller.queue` appends one
new `PlaylistOracle(songs)` at the tail of the currently active chain (the
one `self.queueing_oracle` refers to), preserving its previously queued
children and cursor, and changes nothing else: every other chain, the
`SwitchOracle`'s target, the pending interrupt queue, the player signal
count, the library and the id bookkeeping are untouched. -/
theorem C4_queue_appends_only (fs : String → Bool) (c : ControllerState)
    («alias» : String) (songs : List String) (ch : ChainOracle)
    (hget : c.library.get fs «alias» = .ok songs)
    (hch : c.chainOf c.queueingOracleId = some ch) :
    (c.queue fs «alias»).1 = .ok () ∧
    (c.queue fs «alias»).2.chainOf c.queueingOracleId =
      some ⟨ch.children ++ [ChainChild.playlist ⟨songs, 0⟩], ch.cursor⟩ ∧
    (∀ id, id ≠ c.queueingOracleId →
      (c.queue fs «alias»).2.chainOf id = c.chainOf id) ∧
    (c.queue fs «alias»).2.switchTargetId = c.switchTargetId ∧
    (c.queue fs «alias»).2.queueingOracleId = c.queueingOracleId ∧
    (c.queue fs «alias»).2.interruptQueue = c.interruptQueue ∧
    (c.queue fs «alias»).2.nextSongSignals = c.nextSongSignals ∧
    (c.queue fs «alias»).2.library = c.library ∧
    (c.queue fs «alias»).2.nextId = c.nextId := by
  have hq : c.queue fs «alias» =
      (.ok (), c.setChain c.queueingOracleId
        (fun ch => ch.add (ChainChild.playlist (PlaylistOracle.make songs)))) := by
    simp only [ControllerState.queue, hget]
  rw [hq]
  refine ⟨rfl, ?_, ?_, rfl, rfl, rfl, rfl, rfl, rfl⟩
  · rw [chainOf_setChain_same, hch]
    rfl
  · intro id hid
    exact chainOf_setChain_other c c.queueingOracleId id _ hid

/-- Witness for C4: queueing a known song alias onto the freshly
initialized controller state appends to the empty active chain. -/
theorem C4_queue_appends_only_witness :
    (ControllerState.queue (fun _ => true)
        (ControllerState.init ⟨[("s", ⟨"s", "u", ""⟩)], []⟩) "s").1 = .ok () ∧
    (ControllerState.queue (fun _ => true)
        (ControllerState.init ⟨[("s", ⟨"s", "u", ""⟩)], []⟩) "s").2.chainOf
        (ControllerState.init ⟨[("s", ⟨"s", "u", ""⟩)], []⟩).queueingOracleId =
      some ⟨[ChainChild.playlist ⟨["u"], 0⟩], 0⟩ ∧
    (ControllerState.queue (fun _ => true)
        (ControllerState.init ⟨[("s", ⟨"s", "u", ""⟩)], []⟩) "s").2.interruptQueue =
      (ControllerState.init ⟨[("s", ⟨"s", "u", ""⟩)], []⟩).interruptQueue := by
  have h := C4_queue_appends_only (fun _ => true)
    (ControllerState.init ⟨[("s", ⟨"s", "u", ""⟩)], []⟩) "s" ["u"]
    ⟨[], 0⟩ rfl rfl
  exact ⟨h.1, h.2.1, h.2.2.2.2.2.1⟩

/-- C10: for a name registered neither as a playlist nor as a song,
`Controller.play`, `Controller.queue` and `Controller.queue_repeat` all
raise `NotFoundException` and return the controller state exactly as it
was — the library lookup happens before any mutation of the scheduling
tree. -/
theorem C10_unknown_name_raises_and_mutates_nothing (fs : String → Bool)
    (c : ControllerState) (name : String) (times : Option Nat)
    (hp : c.library.playlists.any (fun p => p.1 == name) = false)
    (hs : c.library.song_map.any (fun p => p.1 == name) = false) :
    c.play fs name = (.error .notFound, c) ∧
    c.queue fs name = (.error .notFound, c) ∧
    c.queue_repeat fs name times = (.error .notFound, c) := by
  have hget : c.library.get fs name = .error .notFound := by
    simp [MediaLibrary.get, hp, hs]
  refine ⟨?_, ?_, ?_⟩ <;>
    simp only [ControllerState.play, ControllerState.queue,
      ControllerState.queue_repeat, hget]

/-- Witness for C10: an unregistered name on the fresh controller state. -/
theorem C10_unknown_name_raises_and_mutates_nothing_witness :
    ControllerState.play (fun _ => true)
        (ControllerState.init ⟨[], []⟩) "missing" =
      (.error .notFound, ControllerState.init ⟨[], []⟩) ∧
    ControllerState.queue (fun _ => true)
        (ControllerState.init ⟨[], []⟩) "missing" =
      (.error .notFound, ControllerState.init ⟨[], []⟩) ∧
    ControllerState.queue_repeat (fun _ => true)
        (ControllerState.init ⟨[], []⟩) "missing" none =
      (.error .notFound, ControllerState.init ⟨[], []⟩) :=
  C10_unknown_name_raises_and_mutates_nothing (fun _ => true)
    (ControllerState.init ⟨[], []⟩) "missing" none rfl rfl

/-- C2: on the root `InterruptOracle`, pending interrupt items are drained
strictly in FIFO enqueue order before anything is pulled from the fallback,
whatever the fallback's state and advance behaviour: while `n` does not
exceed the pending queue, `n` calls to `advance` return exactly the first
`n` pending items and never touch the fallback; in particular after
`interrupt([a, b])` on an idle root the next two `advance` calls yield `a`
then `b`, leaving the fallback untouched. -/
theorem C2_interrupt_fifo_priority {τ : Type}
    (adv : τ → Option String × τ) (fb : τ) (q : List String)
    (a b : String) :
    (∀ n, n ≤ q.length →
      (InterruptOracle.advanceN adv n ⟨q, fb⟩).1 = (q.take n).map some ∧
      (InterruptOracle.advanceN adv n ⟨q, fb⟩).2 = ⟨q.drop n, fb⟩) ∧
    (InterruptOracle.advance adv
      ((⟨[], fb⟩ : InterruptOracle τ).interrupt [a, b])).1 = some a ∧
    (InterruptOracle.advance adv
      (InterruptOracle.advance adv
        ((⟨[], fb⟩ : InterruptOracle τ).interrupt [a, b])).2).1 = some b ∧
    (InterruptOracle.advance adv
      (InterruptOracle.advance adv
        ((⟨[], fb⟩ : InterruptOracle τ).interrupt [a, b])).2).2 =
      ⟨[], fb⟩ :=
  ⟨fun n hn => advanceN_drain adv fb q n hn, rfl, rfl, rfl⟩

/-- Witness for C2 with a concrete fallback and a pending queue of two
items, drained in order by two advances. -/
theorem C2_interrupt_fifo_priority_witness :
    (InterruptOracle.advanceN (fun n : Nat => (none, n)) 2
        ⟨["x", "y"], 0⟩).1 = (["x", "y"].take 2).map some ∧
    (InterruptOracle.advanceN (fun n : Nat => (none, n)) 2
        ⟨["x", "y"], 0⟩).2 = ⟨["x", "y"].drop 2, 0⟩ :=
  (C2_interrupt_fifo_priority (fun n : Nat => (none, n)) 0 ["x", "y"]
    "a" "b").1 2 (by decide)

end NoiseBox
